import Mathlib

/-!
Verification of the HermesIndex search/sync core against its specification.

The Python source is shallowly embedded: pure helpers become Lean functions;
the vector-store and sync-state tables become explicit state (association
lists modelling Python dicts / SQL tables keyed by primary key); hashes
computed by external libraries (md5 via Postgres, sha1 via hashlib) are
abstract `String → String` parameters; floats are modelled as rationals.
-/

/-! ## Python-style string primitives (over `List Char`) -/

/-- Characters stripped by Python `str.strip()` (whitespace). -/
def isStripWS (c : Char) : Bool :=
  c = ' ' || c = '\t' || c = '\n' || c = '\r' || c = '\x0b' || c = '\x0c'

/-- Python `str.strip()`: drop leading and trailing whitespace. -/
def trimSeq (l : List Char) : List Char :=
  ((l.dropWhile isStripWS).reverse.dropWhile isStripWS).reverse

/-- Python `str.lower()` (ASCII range; CJK characters are unaffected,
matching Python on the alphabets used by this code base). -/
def lowerSeq (l : List Char) : List Char := l.map Char.toLower

/-- Python `t.find(q)`: index of the first occurrence of `needle` in the
list, `none` when absent (`-1` in Python). `find` of an empty needle is 0. -/
def subPos (needle : List Char) : List Char → Option Nat
  | [] => if needle.isEmpty then some 0 else none
  | c :: rest =>
    if needle.isPrefixOf (c :: rest) then some 0
    else (subPos needle rest).map (· + 1)

/-- Python `needle in hay` (substring containment). -/
def containsSeq (hay needle : List Char) : Bool := (subPos needle hay).isSome

/-- Helper for `replaceSeq`; `fuel` bounds the recursion by the hay length. -/
def replaceAux (needle repl : List Char) : Nat → List Char → List Char
  | 0, hay => hay
  | _ + 1, [] => []
  | fuel + 1, c :: rest =>
    if !needle.isEmpty && needle.isPrefixOf (c :: rest) then
      repl ++ replaceAux needle repl fuel ((c :: rest).drop needle.length)
    else
      c :: replaceAux needle repl fuel rest

/-- Python `hay.replace(needle, repl)`: replace all occurrences, left to
right, non-overlapping. -/
def replaceSeq (hay needle repl : List Char) : List Char :=
  replaceAux needle repl hay.length hay

/-- Python slice `s[:n]` on strings (by characters). -/
def takeStr (n : Nat) (s : String) : String := String.mk (s.data.take n)

/-! ## Python `dict` as an association list

`insertKV` is `d[k] = v`: update in place when the key exists, else append.
`lookupKV` is `d.get(k)`. -/

def lookupKV {κ β : Type} [DecidableEq κ] : List (κ × β) → κ → Option β
  | [], _ => none
  | (k', v) :: rest, k => if k' = k then some v else lookupKV rest k

def insertKV {κ β : Type} [DecidableEq κ] : List (κ × β) → κ → β → List (κ × β)
  | [], k, v => [(k, v)]
  | (k', v') :: rest, k, v =>
    if k' = k then (k, v) :: rest else (k', v') :: insertKV rest k v

/-! ## Vector payload and metadata filter

From `src/cpu/repositories/vector_store.py` and the payload dict built in
`src/cpu/services/sync_runner.py` (lines 360-377) and the filter dict built
in `src/cpu/api/search.py` (lines 595-602). -/

structure Payload where
  source : String
  pg_id : String
  nsfw : Bool
  nsfw_score : ℚ
  text_hash : String
  embedding_version : String
  has_tmdb : Bool
  genre_tags : List String
  file_type : String
  audio_langs : List String
  subtitle_langs : List String
  size : Option ℚ
deriving DecidableEq

structure MetaFilter where
  has_tmdb : Bool
  genres : List String
  file_type : Option String
  audio_langs : List String
  subtitle_langs : List String
  size_min : Option ℚ
deriving DecidableEq

structure Hit where
  score : ℚ
  payload : Payload
deriving DecidableEq

/-- Modelled from the spec: "Filter semantics (all conjunctive; unknown keys
ignored)" — `has_tmdb = true` → payload `has_tmdb` equals true; `genres` →
`genre_tags` intersects; `file_type` → equality; `audio_langs` /
`subtitle_langs` → any-of intersection; `size_min` → payload `size ≥ bytes`.
This is the spec-side predicate compared against the code's behaviour. -/
def filterConjunctsHold (f : MetaFilter) (p : Payload) : Bool :=
  (!f.has_tmdb || p.has_tmdb) &&
  (f.genres.isEmpty || f.genres.any (fun g => p.genre_tags.contains g)) &&
  (match f.file_type with
   | none => true
   | some ft => decide (p.file_type = ft)) &&
  (f.audio_langs.isEmpty || f.audio_langs.any (fun c => p.audio_langs.contains c)) &&
  (f.subtitle_langs.isEmpty || f.subtitle_langs.any (fun c => p.subtitle_langs.contains c)) &&
  (match f.size_min with
   | none => true
   | some m =>
     match p.size with
     | none => false
     | some s => decide (m ≤ s))

/-- `HNSWVectorStore.query` (vector_store.py lines 120-151).

`meta` is the label→payload dict, `ann` is the nearest-first
`(label, distance)` candidate stream produced by `hnswlib`'s `knn_query`
for the query embedding (abstract: it depends on index geometry);
`knn_query(k)` yields its first `k` entries.  The post-processing —
over-fetch for `size_min`, payload lookup, the size filter (the only
conjunct the local store applies), scoring and the `[offset:offset+topk]`
slice — follows the code. -/
def hnswQuery (meta : List (Nat × Payload)) (metric : String)
    (ann : List (Nat × ℚ)) (mfilter : Option MetaFilter)
    (topk offset : Nat) : List Hit :=
  if meta.isEmpty then []
  else
    let sizeMin : Option ℚ := mfilter.bind (·.size_min)
    let overfetch : Nat :=
      match sizeMin with
      | some m => if m = 0 then 0 else 200
      | none => 0
    let k := min (topk + offset + overfetch) meta.length
    let kept := (ann.take k).filterMap (fun ld =>
      match lookupKV meta ld.1 with
      | none => none
      | some p =>
        let hit : Hit :=
          { score := if metric = "cosine" then 1 - ld.2 else -ld.2
            payload := p }
        match sizeMin with
        | none => some hit
        | some m =>
          match p.size with
          | none => none
          | some s => if s < m then none else some hit)
    (kept.drop offset).take topk

/-! ## Local HNSW store state and `add` (vector_store.py lines 98-118, 153-154) -/

structure HState where
  meta : List (Nat × Payload)
  keyIndex : List ((String × String) × Nat)
  nextLabel : Nat
deriving DecidableEq

def payloadKey (p : Payload) : String × String := (p.source, p.pg_id)

/-- One iteration of the `add` loop: reuse the label of an existing
`(source, pg_id)` key (the old vector is marked deleted in the ANN index),
else allocate `next_label`; update the payload map and key index. -/
def hnswAddOne (st : HState) (p : Payload) : HState × Nat :=
  match lookupKV st.keyIndex (payloadKey p) with
  | some l =>
    ({ meta := insertKV st.meta l p
       keyIndex := insertKV st.keyIndex (payloadKey p) l
       nextLabel := st.nextLabel }, l)
  | none =>
    ({ meta := insertKV st.meta st.nextLabel p
       keyIndex := insertKV st.keyIndex (payloadKey p) st.nextLabel
       nextLabel := st.nextLabel + 1 }, st.nextLabel)

/-- `HNSWVectorStore.add`: fold the loop over the batch, collecting the
returned labels. -/
def hnswAdd (st : HState) (ps : List Payload) : HState × List Nat :=
  ps.foldl (fun acc p =>
    let r := hnswAddOne acc.1 p
    (r.1, acc.2 ++ [r.2])) (st, [])

/-- State after `add` ignoring the returned labels. -/
def hnswAddStates (st : HState) (ps : List Payload) : HState :=
  ps.foldl (fun s p => (hnswAddOne s p).1) st

/-- `HNSWVectorStore.size`: `len(self.meta)`. -/
def hnswSize (st : HState) : Nat := st.meta.length

/-- Well-formedness maintained by `_load_meta` and `add`: every key-index
entry points at a live payload label, and all live labels are below
`next_label`. -/
def HStateWF (st : HState) : Prop :=
  (∀ e ∈ st.keyIndex, (lookupKV st.meta e.2).isSome) ∧
  ∀ e ∈ st.meta, e.1 < st.nextLabel

instance (st : HState) : Decidable (HStateWF st) := by
  unfold HStateWF; infer_instance

/-- Number of distinct `(source, pg_id)` keys in a batch that are not yet
present in the store's key index. -/
def newKeyCount (st : HState) (ps : List Payload) : Nat :=
  ((ps.map payloadKey).toFinset.filter
    (fun k => lookupKV st.keyIndex k = none)).card

/-! ## Keyword hit scoring (`search.py` lines 701-711) -/

/-- Normalisation applied by `_keyword_hit_score` to both arguments:
`.strip().lower()`. -/
def normQT (s : String) : List Char := lowerSeq (trimSeq s.data)

/-- `_keyword_hit_score(query, title)`: 0.0 when either side is empty after
normalisation, 1.0 on exact match, `max(0.2, 0.9 / (1 + pos))` on a
substring match at `pos`, 0.1 otherwise. -/
def keywordHitScore (query title : String) : ℚ :=
  let q := normQT query
  let t := normQT title
  if q.isEmpty || t.isEmpty then 0
  else if q = t then 1
  else
    match subPos q t with
    | none => 1/10
    | some p => max (1/5) ((9/10) / (1 + (p : ℚ)))

/-! ## Query rewrite: filter extraction (`search.py` lines 303-370, 450-480) -/

structure QueryFilters where
  file_type : Option String
  audio_langs : List String
  subtitle_langs : List String
  genres : List String
deriving DecidableEq

/-- The genre mapping of `extract_genre_filters` (dict in insertion order). -/
def genreMapping : List (String × List String) :=
  [("惊悚", ["惊悚", "Thriller"]),
   ("恐怖", ["恐怖", "Horror"]),
   ("悬疑", ["悬疑", "Mystery"]),
   ("动作", ["动作", "Action"]),
   ("科幻", ["科幻", "Science Fiction"]),
   ("犯罪", ["犯罪", "Crime"]),
   ("爱情", ["爱情", "Romance"]),
   ("喜剧", ["喜剧", "Comedy"]),
   ("剧情", ["剧情", "Drama"]),
   ("冒险", ["冒险", "Adventure"]),
   ("动画", ["动画", "Animation"]),
   ("奇幻", ["奇幻", "Fantasy"]),
   ("战争", ["战争", "War"]),
   ("纪录", ["纪录", "Documentary"]),
   ("家庭", ["家庭", "Family"]),
   ("音乐", ["音乐", "Music"]),
   ("历史", ["历史", "History"]),
   ("西部", ["西部", "Western"])]

/-- Dedup-preserving-order idiom (`seen` set + append) used throughout. -/
def dedupPreserve (l : List String) : List String :=
  l.foldl (fun acc x => if acc.contains x then acc else acc ++ [x]) []

/-- `extract_genre_filters(query)`. -/
def extractGenreFilters (query : String) : List String :=
  dedupPreserve (genreMapping.foldl
    (fun acc kv => if containsSeq query.data kv.1.data then acc ++ kv.2 else acc) [])

/-- The language dictionary shared by `_detect_query_languages` (search.py)
and `_detect_languages` (sync_runner.py); dict in insertion order. -/
def langMap : List (String × List String) :=
  [("zh", ["中文", "国语", "简体", "繁体", "chinese", "chs", "cht", "chi", "mandarin"]),
   ("en", ["英文", "英语", "english", "eng"]),
   ("jp", ["日语", "日文", "japanese", "jpn"]),
   ("kr", ["韩语", "韩文", "korean", "kor"]),
   ("fr", ["法语", "french", "fre"]),
   ("de", ["德语", "german", "ger"]),
   ("es", ["西语", "西班牙", "spanish", "spa"]),
   ("ru", ["俄语", "russian", "rus"])]

/-- Subtitle-marker tokens. -/
def subtitleKeys : List String := ["字幕", "中字", "双语", "sub", "subs", "subtitle"]

/-- `add_lang`: append a code if not already present. -/
def addLang (target : List String) (code : String) : List String :=
  if target.contains code then target else target ++ [code]

/-- `_detect_query_languages(text)` → `(audio_langs, subtitle_langs)`. -/
def detectQueryLanguages (text : String) : List String × List String :=
  if text.data.isEmpty then ([], [])
  else
    let lower := lowerSeq text.data
    let isSub := subtitleKeys.any (fun k => containsSeq lower k.data)
    langMap.foldl (fun acc ck =>
      if ck.2.any (fun k => containsSeq lower (lowerSeq k.data)) then
        if isSub then (acc.1, addLang acc.2 ck.1)
        else (addLang acc.1 ck.1, addLang acc.2 ck.1)
      else acc) ([], [])

/-- The file-type phrase dictionary of `extract_query_filters`
(dict in insertion order; the loop breaks on the first hit). -/
def fileTypeMap : List (String × String) :=
  [("视频文件", "video"),
   ("音频文件", "audio"),
   ("字幕文件", "subtitle"),
   ("图片文件", "image"),
   ("图片类文件", "image"),
   ("压缩包", "archive"),
   ("压缩文件", "archive")]

/-- `extract_query_filters(query)` → `(cleaned_query, filters)`
(search.py lines 338-370). -/
def extractQueryFilters (query : String) : String × QueryFilters :=
  let hit := fileTypeMap.find? (fun kv => containsSeq query.data kv.1.data)
  let raw : List Char :=
    match hit with
    | some kv => replaceSeq query.data kv.1.data []
    | none => query.data
  let langs := detectQueryLanguages (String.mk raw)
  let genres := extractGenreFilters (String.mk raw)
  let cleaned := trimSeq raw
  (if cleaned.isEmpty then query else String.mk cleaned,
   { file_type := hit.map (·.2)
     audio_langs := langs.1
     subtitle_langs := langs.2
     genres := genres })

/-! ## Catalog rows, sync-state table and `fetch_pending`
(`src/cpu/repositories/pg.py`) -/

/-- A catalog row (the configured `id_field`, `text_field`,
`updated_at_field` projections); timestamps are modelled as integers,
`none` for SQL NULL. -/
structure CatRow where
  pg_id : String
  text : String
  updated_at : Option Int
deriving DecidableEq

/-- A `sync_state` row (all columns nullable except the key). -/
structure SyncRow where
  text_hash : Option String
  embedding_version : Option String
  vector_id : Option String
  nsfw_score : Option ℚ
  updated_at : Option Int
  last_error : Option String
deriving DecidableEq

/-- The `sync_state` table, keyed by `(source, pg_id)`. -/
abbrev SyncDB : Type := List ((String × String) × SyncRow)

/-- The WHERE disjunction of `fetch_pending` (pg.py lines 57-65), for the
configured `updated_at_field` branch: `s.pg_id IS NULL`, or
`t.updated_at > COALESCE(s.updated_at, to_timestamp(0))` (SQL comparison
with a NULL catalog timestamp is not true), or
`s.text_hash IS DISTINCT FROM md5(t.text)`.  `srow` is the left-joined
sync-state row. -/
def pendingWhere (md5 : String → String) (srow : Option SyncRow) (r : CatRow) : Bool :=
  match srow with
  | none => true
  | some s =>
    (match r.updated_at with
     | some tu => decide (tu > s.updated_at.getD 0)
     | none => false)
    || decide (s.text_hash ≠ some (md5 r.text))

/-- Modelled from the spec: "A catalog row is re-embedded when (no
sync-state) OR (catalog `updated_at` > sync-state `updated_at`) OR
(md5(text) ≠ sync-state.text_hash)". -/
def specPending (md5 : String → String) (srow : Option SyncRow) (r : CatRow) : Bool :=
  match srow with
  | none => true
  | some s =>
    (match r.updated_at, s.updated_at with
     | some tu, some su => decide (tu > su)
     | _, _ => false)
    || decide (s.text_hash ≠ some (md5 r.text))

/-- `ORDER BY updated_at NULLS LAST` as a relation on catalog rows
(ascending; ties left unconstrained by the SQL). -/
def updRel (a b : CatRow) : Prop :=
  match a.updated_at, b.updated_at with
  | none, none => True
  | none, some _ => False
  | some _, none => True
  | some x, some y => x ≤ y

instance : DecidableRel updRel := fun a b => by
  unfold updRel
  rcases a.updated_at with _ | x <;> rcases b.updated_at with _ | y <;> infer_instance

instance : IsTotal CatRow updRel := by
  constructor
  intro a b
  unfold updRel
  rcases a.updated_at with _ | x <;> rcases b.updated_at with _ | y <;> simp [Int.le_total]

instance : IsTrans CatRow updRel := by
  constructor
  intro a b c hab hbc
  unfold updRel at *
  revert hab hbc
  rcases a.updated_at with _ | x <;> rcases b.updated_at with _ | y <;>
    rcases c.updated_at with _ | z <;> simp
  omega

/-- `fetch_pending(source, batch_size)` (pg.py lines 39-78): filter the
catalog rows by the WHERE clause (left join looks up `(source, pg_id)` in
`sync_state`), order by `updated_at NULLS LAST` (a stable sort: SQL leaves
tie order unspecified; table order is the realisable instance modelled
here), then `LIMIT batch_size`. -/
def fetchPendingRows (md5 : String → String) (sdb : SyncDB) (src : String)
    (rows : List CatRow) (n : Nat) : List CatRow :=
  (List.insertionSort updRel
    (rows.filter (fun r => pendingWhere md5 (lookupKV sdb (src, r.pg_id)) r))).take n

/-- A row as returned by `fetch_pending`'s SELECT list: `pg_id`, `text`,
`text_hash = md5(t.text)` computed by Postgres, `updated_at`. -/
structure PendingRow where
  pg_id : String
  text : String
  text_hash : Option String
  updated_at : Option Int
deriving DecidableEq

/-- The SELECT projection of `fetch_pending` (pg.py lines 47-53). -/
def projectRow (md5 : String → String) (r : CatRow) : PendingRow :=
  { pg_id := r.pg_id, text := r.text
    text_hash := some (md5 r.text), updated_at := r.updated_at }

/-- Claim-order used by the specification for `fetch_pending` results:
`updated_at` (nulls last) then id ascending.  Adjacent-pairs check. -/
def specLE (a b : CatRow) : Bool :=
  match a.updated_at, b.updated_at with
  | none, none => charListLE a.pg_id.data b.pg_id.data
  | none, some _ => false
  | some _, none => true
  | some x, some y =>
    decide (x < y) || (decide (x = y) && charListLE a.pg_id.data b.pg_id.data)
where
  charListLE : List Char → List Char → Bool
    | [], _ => true
    | _ :: _, [] => false
    | a :: as, b :: bs => if a = b then charListLE as bs else decide (a < b)

/-- Adjacent-pairs orderedness under `specLE`. -/
def specOrdered : List CatRow → Bool
  | [] => true
  | [_] => true
  | a :: b :: t => specLE a b && specOrdered (b :: t)

/-! ## Sync pipeline: payload construction (`sync_runner.py` lines 319-386),
enrichment-refresh row rebuild (lines 149-165 and 286-311), and
`utils.text_hash` (which is `hashlib.sha1`, utils.py lines 7-8). -/

/-- The enrichment-refresh paths rebuild each row as
`{"pg_id": ..., "text": text, "text_hash": text_hash(text)}` where
`text_hash` is `utils.text_hash`, i.e. sha1 (abstract parameter). -/
def refreshedRow (sha1 : String → String) (pgid text : String)
    (upd : Option Int) : PendingRow :=
  { pg_id := pgid, text := text, text_hash := some (sha1 text), updated_at := upd }

/-- `row.get("text_hash") or text_hash(row["text"])` (lines 366 and 382):
Python `or` falls through on a missing or empty hash. -/
def rowTextHash (sha1 : String → String) (r : PendingRow) : String :=
  match r.text_hash with
  | some h => if h = "" then sha1 r.text else h
  | none => sha1 r.text

/-- `source.get("tagging", {}).get("nsfw", True)`. -/
def taggingEnabled (taggingNsfw : Option Bool) : Bool := taggingNsfw.getD true

/-- Line 341: `nsfw_flag = score >= nsfw_threshold if tagging else False`. -/
def syncNsfwFlag (taggingNsfw : Option Bool) (score threshold : ℚ) : Bool :=
  if taggingEnabled taggingNsfw then decide (score ≥ threshold) else false

/-- The claim-relevant projection of the payload dict built per row
(sync_runner.py lines 360-377; identity, nsfw flag and score, text hash,
embedding version — the remaining tag fields are independent of these). -/
structure SyncMeta where
  source : String
  pg_id : String
  nsfw : Bool
  nsfw_score : ℚ
  text_hash : String
  embedding_version : String
deriving DecidableEq

def buildMeta (sha1 : String → String) (srcName : String)
    (taggingNsfw : Option Bool) (embVer : String) (threshold : ℚ)
    (r : PendingRow) (score : ℚ) : SyncMeta :=
  { source := srcName
    pg_id := r.pg_id
    nsfw := syncNsfwFlag taggingNsfw score threshold
    nsfw_score := score
    text_hash := rowTextHash sha1 r
    embedding_version := embVer }

/-- The per-row sync-state update dict (lines 379-386) after the vector
id is attached (line 398-399). -/
structure UpdateRec where
  pg_id : String
  text_hash : Option String
  embedding_version : Option String
  nsfw_score : ℚ
  vector_id : String
deriving DecidableEq

def buildUpdate (sha1 : String → String) (embVer : String)
    (r : PendingRow) (score : ℚ) (vectorId : String) : UpdateRec :=
  { pg_id := r.pg_id
    text_hash := some (rowTextHash sha1 r)
    embedding_version := some embVer
    nsfw_score := score
    vector_id := vectorId }

/-- Python `x or 0.0` applied to an optional float
(`(sync_scores.get(pg_id) or {}).get("nsfw_score") or 0.0`). -/
def pyOrZero (o : Option ℚ) : ℚ :=
  match o with
  | none => 0
  | some v => if v = 0 then 0 else v

/-- The nsfw flag reconstituted by `/search_keyword`'s SQL path
(search.py lines 897-902). -/
def keywordNsfwFlag (taggingNsfw : Option Bool) (syncScore : Option ℚ)
    (threshold : ℚ) : Bool :=
  if taggingEnabled taggingNsfw then decide (pyOrZero syncScore ≥ threshold)
  else false

/-! ## Sync-state writes (`pg.py` lines 80-120) -/

/-- The row written by `upsert_sync_state` for one update record: both the
INSERT arm (no `last_error` column) and the `ON CONFLICT DO UPDATE` arm
(`last_error = NULL`) leave `last_error` NULL and set `updated_at = now()`. -/
def upsertRow (now : Int) (u : UpdateRec) : SyncRow :=
  { text_hash := u.text_hash
    embedding_version := u.embedding_version
    vector_id := some u.vector_id
    nsfw_score := some u.nsfw_score
    updated_at := some now
    last_error := none }

/-- `upsert_sync_state(source, rows)` (executemany over the batch). -/
def upsertSyncState (src : String) (updates : List UpdateRec) (now : Int)
    (sdb : SyncDB) : SyncDB :=
  updates.foldl (fun acc u => insertKV acc (src, u.pg_id) (upsertRow now u)) sdb

/-- `mark_failure(source, pg_id, error)` (pg.py lines 112-120): INSERT with
only `last_error` (truncated to 512 characters) and `updated_at`, or
ON CONFLICT update of those two columns. -/
def markFailure (src pgid err : String) (now : Int) (sdb : SyncDB) : SyncDB :=
  let nrow : SyncRow :=
    match lookupKV sdb (src, pgid) with
    | some old => { old with last_error := some (takeStr 512 err), updated_at := some now }
    | none =>
      { text_hash := none, embedding_version := none, vector_id := none
        nsfw_score := none, updated_at := some now
        last_error := some (takeStr 512 err) }
  insertKV sdb (src, pgid) nrow

/-- sync_runner.py lines 330-333: on an embedding failure the coordinator
marks every row of the batch. -/
def markBatchFailure (src : String) (pgIds : List String) (err : String)
    (now : Int) (sdb : SyncDB) : SyncDB :=
  pgIds.foldl (fun acc i => markFailure src i err now acc) sdb

/-! ## Embedding client retry loop (`gpu_client.py` lines 12-35) -/

/-- Outcome of one HTTP attempt: a 2xx response with a JSON body, an error
status (the `{502,503,504}` branch or `raise_for_status`), or a raised
exception (transport error, JSON decode failure, ...). -/
inductive AttemptOutcome where
  | ok : AttemptOutcome
  | httpErr : Nat → AttemptOutcome
  | exn : AttemptOutcome
deriving DecidableEq

/-- Observable trace of `GPUClient._post`: number of attempts made, the
sleeps performed (seconds, in order), and whether the call returned. -/
structure PostTrace where
  attempts : Nat
  sleeps : List ℚ
  ok : Bool
deriving DecidableEq

/-- `time.sleep(0.3 * (attempt + 1))` for the 0-based `attempt`. -/
def backoff (i : Nat) : ℚ := 3/10 * (i + 1)

/-- `GPUClient._post`: `for attempt in range(3)`, returning on the first
successful attempt; every failed attempt (transient status, error status
raised by `raise_for_status`, or exception) sleeps and continues; after the
loop a `RuntimeError` is raised. -/
def gpuPostRun (outcomes : Nat → AttemptOutcome) : PostTrace :=
  match outcomes 0 with
  | .ok => { attempts := 1, sleeps := [], ok := true }
  | _ =>
    match outcomes 1 with
    | .ok => { attempts := 2, sleeps := [backoff 0], ok := true }
    | _ =>
      match outcomes 2 with
      | .ok => { attempts := 3, sleeps := [backoff 0, backoff 1], ok := true }
      | _ => { attempts := 3, sleeps := [backoff 0, backoff 1, backoff 2], ok := false }

/-- Whether an attempt outcome is in the transient set the spec names:
HTTP status ∈ {502, 503, 504}, or a transport-level error. -/
def transientOutcome : AttemptOutcome → Bool
  | .ok => false
  | .httpErr c => decide (c = 502) || decide (c = 503) || decide (c = 504)
  | .exn => true

/-! ## Concrete instances used by counterexamples and witnesses -/

def payBase : Payload :=
  { source := "s", pg_id := "1", nsfw := false, nsfw_score := 0
    text_hash := "h1", embedding_version := "v1", has_tmdb := false
    genre_tags := [], file_type := "audio", audio_langs := []
    subtitle_langs := [], size := none }

def paySized : Payload :=
  { payBase with pg_id := "2", text_hash := "h2", file_type := "video", size := some 7 }

def filtVideo : MetaFilter :=
  { has_tmdb := false, genres := [], file_type := some "video"
    audio_langs := [], subtitle_langs := [], size_min := none }

def filtSize : MetaFilter :=
  { has_tmdb := false, genres := [], file_type := none
    audio_langs := [], subtitle_langs := [], size_min := some 5 }

def hst1 : HState := { meta := [(0, payBase)], keyIndex := [(("s", "1"), 0)], nextLabel := 1 }

def oc500 : Nat → AttemptOutcome := fun i => if i = 0 then .httpErr 500 else .ok

/-! ## Theorems -/

theorem lookupKV_insertKV {κ β : Type} [DecidableEq κ]
    (d : List (κ × β)) (k k' : κ) (v : β) :
    lookupKV (insertKV d k v) k' = if k' = k then some v else lookupKV d k' := by
  induction d with
  | nil =>
    by_cases h : k' = k
    · simp [insertKV, lookupKV, h]
    · simp [insertKV, lookupKV, h, Ne.symm h]
  | cons e rest ih =>
    obtain ⟨ke, ve⟩ := e
    by_cases hk : ke = k
    · subst hk
      by_cases h : k' = ke
      · simp [insertKV, lookupKV, h]
      · simp [insertKV, lookupKV, h, Ne.symm h]
    · by_cases h2 : ke = k'
      · subst h2
        simp [insertKV, lookupKV, hk, Ne.symm hk]
      · simp [insertKV, lookupKV, hk, h2, ih]

theorem length_insertKV {κ β : Type} [DecidableEq κ]
    (d : List (κ × β)) (k : κ) (v : β) :
    (insertKV d k v).length =
      if (lookupKV d k).isSome then d.length else d.length + 1 := by
  induction d with
  | nil => simp [insertKV, lookupKV]
  | cons e rest ih =>
    obtain ⟨ke, ve⟩ := e
    by_cases hk : ke = k
    · simp [insertKV, lookupKV, hk, ih]
    · by_cases h2 : (lookupKV rest k).isSome <;> simp [insertKV, lookupKV, hk, ih, h2]

theorem lookupKV_eq_some_mem {κ β : Type} [DecidableEq κ]
    {d : List (κ × β)} {k : κ} {v : β} (h : lookupKV d k = some v) :
    (k, v) ∈ d := by
  induction d with
  | nil => simp [lookupKV] at h
  | cons e rest ih =>
    obtain ⟨ke, ve⟩ := e
    by_cases hk : ke = k
    · subst hk
      simp [lookupKV] at h
      simp [h]
    · simp [lookupKV, hk] at h
      exact List.mem_cons_of_mem _ (ih h)

theorem mem_lookupKV_isSome {κ β : Type} [DecidableEq κ]
    {d : List (κ × β)} {k : κ} {v : β} (h : (k, v) ∈ d) :
    (lookupKV d k).isSome := by
  induction d with
  | nil => simp at h
  | cons e rest ih =>
    obtain ⟨ke, ve⟩ := e
    by_cases hk : ke = k
    · simp [lookupKV, hk]
    · rcases List.mem_cons.mp h with h1 | h2
      · exact absurd (congrArg Prod.fst h1).symm hk
      · simpa [lookupKV, hk] using ih h2

theorem mem_insertKV {κ β : Type} [DecidableEq κ]
    {d : List (κ × β)} {k : κ} {v : β} {e : κ × β} (h : e ∈ insertKV d k v) :
    e = (k, v) ∨ e ∈ d := by
  induction d with
  | nil => simpa [insertKV] using h
  | cons f rest ih =>
    obtain ⟨kf, vf⟩ := f
    by_cases hk : kf = k
    · simp [insertKV, hk] at h
      rcases h with h | h
      · exact Or.inl h
      · exact Or.inr (List.mem_cons_of_mem _ h)
    · simp [insertKV, hk] at h
      rcases h with h | h
      · exact Or.inr (by simp [h])
      · rcases ih h with h2 | h2
        · exact Or.inl h2
        · exact Or.inr (List.mem_cons_of_mem _ h2)

/-! ## Lemmas about the HNSW store -/

theorem isSome_lookupKV_insertKV {κ β : Type} [DecidableEq κ]
    {d : List (κ × β)} {k : κ} (k' : κ) (v : β)
    (h : (lookupKV d k).isSome) :
    (lookupKV (insertKV d k' v) k).isSome := by
  rw [lookupKV_insertKV]
  by_cases hk : k = k' <;> simp [hk, h]

theorem hnswAddOne_wf (st : HState) (p : Payload) (h : HStateWF st) :
    HStateWF (hnswAddOne st p).1 := by
  obtain ⟨h1, h2⟩ := h
  unfold hnswAddOne
  cases hl : lookupKV st.keyIndex (payloadKey p) with
  | some l =>
    refine ⟨fun e he => ?_, fun e he => ?_⟩
    · rcases mem_insertKV he with he2 | he2
      · subst he2
        simp only
        rw [lookupKV_insertKV]
        simp
      · exact isSome_lookupKV_insertKV _ _ (h1 e he2)
    · rcases mem_insertKV he with he2 | he2
      · subst he2
        obtain ⟨q, hq⟩ := Option.isSome_iff_exists.mp (h1 _ (lookupKV_eq_some_mem hl))
        simpa using h2 _ (lookupKV_eq_some_mem hq)
      · exact h2 e he2
  | none =>
    refine ⟨fun e he => ?_, fun e he => ?_⟩
    · rcases mem_insertKV he with he2 | he2
      · subst he2
        simp only
        rw [lookupKV_insertKV]
        simp
      · exact isSome_lookupKV_insertKV _ _ (h1 e he2)
    · rcases mem_insertKV he with he2 | he2
      · subst he2
        simp
      · exact Nat.lt_succ_of_lt (h2 e he2)

theorem hnswAddOne_found (st : HState) (p : Payload) (l : Nat)
    (h : HStateWF st) (hl : lookupKV st.keyIndex (payloadKey p) = some l) :
    (hnswAddOne st p).2 = l ∧
    hnswSize (hnswAddOne st p).1 = hnswSize st ∧
    ∀ k, lookupKV (hnswAddOne st p).1.keyIndex k = lookupKV st.keyIndex k := by
  obtain ⟨h1, h2⟩ := h
  have hsome : (lookupKV st.meta l).isSome := h1 _ (lookupKV_eq_some_mem hl)
  unfold hnswAddOne
  rw [hl]
  refine ⟨rfl, ?_, fun k => ?_⟩
  · simp only [hnswSize]
    rw [length_insertKV, if_pos hsome]
  · simp only
    rw [lookupKV_insertKV]
    by_cases hk : k = payloadKey p
    · subst hk
      simp [hl]
    · simp [hk]

theorem hnswAddOne_new (st : HState) (p : Payload)
    (h : HStateWF st) (hl : lookupKV st.keyIndex (payloadKey p) = none) :
    (hnswAddOne st p).2 = st.nextLabel ∧
    hnswSize (hnswAddOne st p).1 = hnswSize st + 1 ∧
    ∀ k, lookupKV (hnswAddOne st p).1.keyIndex k =
      if k = payloadKey p then some st.nextLabel else lookupKV st.keyIndex k := by
  obtain ⟨h1, h2⟩ := h
  have hnone : ¬ (lookupKV st.meta st.nextLabel).isSome := by
    intro hs
    obtain ⟨q, hq⟩ := Option.isSome_iff_exists.mp hs
    exact absurd (h2 _ (lookupKV_eq_some_mem hq)) (lt_irrefl _)
  unfold hnswAddOne
  rw [hl]
  refine ⟨rfl, ?_, fun k => ?_⟩
  · simp only [hnswSize]
    rw [length_insertKV, if_neg hnone]
  · simp only
    rw [lookupKV_insertKV]

theorem hnswAdd_fst_aux (ps : List Payload) (st : HState) (acc : List Nat) :
    (ps.foldl (fun acc p =>
      let r := hnswAddOne acc.1 p
      (r.1, acc.2 ++ [r.2])) (st, acc)).1 = hnswAddStates st ps := by
  induction ps generalizing st acc with
  | nil => rfl
  | cons p ps ih => simpa [hnswAddStates, List.foldl_cons] using ih _ _

theorem hnswAdd_fst (st : HState) (ps : List Payload) :
    (hnswAdd st ps).1 = hnswAddStates st ps := hnswAdd_fst_aux ps st []

theorem hnswAddStates_size_le (ps : List Payload) (st : HState)
    (hwf : HStateWF st) :
    hnswSize (hnswAddStates st ps) ≤ hnswSize st + newKeyCount st ps := by
  induction ps generalizing st with
  | nil => simp [hnswAddStates]
  | cons p ps ih =>
    have hwf' := hnswAddOne_wf st p hwf
    have hstep : hnswAddStates st (p :: ps) = hnswAddStates (hnswAddOne st p).1 ps := by
      simp [hnswAddStates]
    rw [hstep]
    have hIH := ih _ hwf'
    cases hl : lookupKV st.keyIndex (payloadKey p) with
    | some l =>
      obtain ⟨-, hsize, hki⟩ := hnswAddOne_found st p l hwf hl
      have hfilter : newKeyCount (hnswAddOne st p).1 ps ≤ newKeyCount st (p :: ps) := by
        unfold newKeyCount
        have he : ((ps.map payloadKey).toFinset.filter
            (fun k => lookupKV (hnswAddOne st p).1.keyIndex k = none)) =
            ((ps.map payloadKey).toFinset.filter
              (fun k => lookupKV st.keyIndex k = none)) := by
          apply Finset.filter_congr
          intro x _
          rw [hki x]
        rw [he]
        apply Finset.card_le_card
        apply Finset.filter_subset_filter
        intro x hx
        simp only [List.map_cons, List.toFinset_cons]
        exact Finset.mem_insert_of_mem hx
      omega
    | none =>
      obtain ⟨-, hsize, hki⟩ := hnswAddOne_new st p hwf hl
      set S := (ps.map payloadKey).toFinset with hS
      set X := S.filter (fun k => lookupKV st.keyIndex k = none) with hX
      have he : ((ps.map payloadKey).toFinset.filter
          (fun k => lookupKV (hnswAddOne st p).1.keyIndex k = none)) =
          X.erase (payloadKey p) := by
        ext x
        simp only [Finset.mem_filter, Finset.mem_erase, hX, hS, hki x]
        by_cases hx : x = payloadKey p
        · simp [hx]
        · simp [hx]
      have hcount : newKeyCount st (p :: ps) = (insert (payloadKey p) X).card := by
        unfold newKeyCount
        simp only [List.map_cons, List.toFinset_cons]
        rw [Finset.filter_insert, if_pos hl]
      have hcount' : newKeyCount (hnswAddOne st p).1 ps = (X.erase (payloadKey p)).card := by
        unfold newKeyCount
        rw [he]
      by_cases hmem : payloadKey p ∈ X
      · have h1 : (X.erase (payloadKey p)).card = X.card - 1 :=
          Finset.card_erase_of_mem hmem
        have h2 : (insert (payloadKey p) X).card = X.card :=
          by rw [Finset.insert_eq_self.mpr hmem]
        have h3 : 1 ≤ X.card := Finset.card_pos.mpr ⟨_, hmem⟩
        omega
      · have h1 : X.erase (payloadKey p) = X := Finset.erase_eq_of_not_mem hmem
        have h2 : (insert (payloadKey p) X).card = X.card + 1 :=
          Finset.card_insert_of_not_mem hmem
        rw [h1] at hcount'
        omega

/-- C3: re-adding an existing `(source, pg_id)` key returns the same label
as the previous insertion and leaves `size()` unchanged, and a batch of
`add` calls grows `size()` by at most one per distinct key not already in
the store — so repeated update cycles on the same keys grow the store by at
most one per distinct new key. -/
theorem hnsw_add_stable_ids_and_size (st : HState) (p : Payload) (l : Nat)
    (ps : List Payload) (hwf : HStateWF st) :
    (lookupKV st.keyIndex (payloadKey p) = some l →
      (hnswAddOne st p).2 = l ∧ hnswSize (hnswAddOne st p).1 = hnswSize st) ∧
    hnswSize (hnswAdd st ps).1 ≤ hnswSize st + newKeyCount st ps := by
  constructor
  · intro hl
    obtain ⟨ha, hb, -⟩ := hnswAddOne_found st p l hwf hl
    exact ⟨ha, hb⟩
  · rw [hnswAdd_fst]
    exact hnswAddStates_size_le ps st hwf

/-! ## Claim C3 witness -/

/-- Witness for C3 at a concrete one-element store and a two-element batch. -/
theorem hnsw_add_stable_ids_and_size_witness :
    ((hnswAddOne hst1 payBase).2 = 0 ∧
      hnswSize (hnswAddOne hst1 payBase).1 = hnswSize hst1) ∧
    hnswSize (hnswAdd hst1 [payBase, paySized]).1 ≤
      hnswSize hst1 + newKeyCount hst1 [payBase, paySized] := by
  have h := hnsw_add_stable_ids_and_size hst1 payBase 0 [payBase, paySized] (by decide)
  exact ⟨h.1 (by decide), h.2⟩

/-! ## Claim C1: filter conjuncts on `query` hits -/

/-- C1 counterexample: the local HNSW store returns a hit whose payload
violates the `file_type` conjunct of a non-null `metadata_filter` — the
store with a single `file_type = "audio"` point, queried with the filter
`{file_type: "video"}`, returns that point. -/
theorem hnsw_query_filter_counterexample :
    hnswQuery [(0, payBase)] "dot" [(0, 0)] (some filtVideo) 1 0 =
      [{ score := 0, payload := payBase }] ∧
    filterConjunctsHold filtVideo payBase = false := by
  constructor
  · decide
  · decide

/-- C1 amended: the only conjunct the local HNSW `query` enforces is
`size_min` — every hit returned under a filter with `size_min` set has a
numeric payload size at least `size_min`; the remaining conjuncts are not
applied by the local store. -/
theorem hnsw_query_size_min_enforced (meta : List (Nat × Payload))
    (metric : String) (ann : List (Nat × ℚ)) (filt : MetaFilter)
    (topk offset : Nat) (m : ℚ) (hit : Hit)
    (hm : filt.size_min = some m)
    (hmem : hit ∈ hnswQuery meta metric ann (some filt) topk offset) :
    ∃ s, hit.payload.size = some s ∧ m ≤ s := by
  unfold hnswQuery at hmem
  by_cases hempty : meta.isEmpty
  · simp [hempty] at hmem
  · simp only [hempty, if_false, Option.bind_eq_bind, Option.some_bind, hm] at hmem
    have hmem2 := List.mem_of_mem_take hmem
    have hmem3 := List.mem_of_mem_drop hmem2
    obtain ⟨ld, -, hld⟩ := List.mem_filterMap.mp hmem3
    cases hlk : lookupKV meta ld.1 with
    | none => rw [hlk] at hld; simp at hld
    | some p =>
      rw [hlk] at hld
      simp only at hld
      cases hsz : p.size with
      | none => rw [hsz] at hld; simp at hld
      | some s =>
        rw [hsz] at hld
        simp only at hld
        by_cases hlt : s < m
        · rw [if_pos hlt] at hld; simp at hld
        · rw [if_neg hlt] at hld
          simp only [Option.some_inj] at hld
          refine ⟨s, ?_, not_lt.mp hlt⟩
          rw [← hld]
          exact hsz

/-- Witness for the amended C1 theorem at a concrete store and filter. -/
theorem hnsw_query_size_min_enforced_witness :
    ∃ s, ({ score := 0, payload := paySized } : Hit).payload.size = some s ∧ (5 : ℚ) ≤ s :=
  hnsw_query_size_min_enforced [(0, paySized)] "dot" [(0, 0)] filtSize 1 0 5
    { score := 0, payload := paySized } (by decide) (by decide)

/-! ## Claim C4: keyword scoring monotonicity -/

theorem keywordHitScore_of_found (query title : String) (p : Nat)
    (hq : (normQT query).isEmpty = false)
    (ht : (normQT title).isEmpty = false)
    (hne : normQT query ≠ normQT title)
    (hp : subPos (normQT query) (normQT title) = some p) :
    keywordHitScore query title = max (1/5) ((9/10) / (1 + (p : ℚ))) := by
  unfold keywordHitScore
  simp only [hq, ht, Bool.or_self, if_false, if_neg hne, hp, Bool.false_eq_true]

/-- The substring score `max(0.2, 0.9 / (1 + p))` is antitone in the match
position. -/
theorem posScore_antitone (p1 p2 : Nat) (h : p1 < p2) :
    max ((1:ℚ)/5) ((9/10) / (1 + (p2 : ℚ))) ≤ max ((1:ℚ)/5) ((9/10) / (1 + (p1 : ℚ))) := by
  apply max_le_max le_rfl
  apply div_le_div_of_nonneg_left (by norm_num) (by positivity)
  have : (p1 : ℚ) ≤ p2 := by exact_mod_cast le_of_lt h
  linarith

/-- C4 counterexample: two titles matching the query strictly later vs
earlier (positions 4 and 5), both non-exact, receive the same floored
score 0.2, so the strictly-greater claim fails. -/
theorem keyword_score_monotone_counterexample :
    subPos (normQT "a") (normQT "xxxxa") = some 4 ∧
    subPos (normQT "a") (normQT "xxxxxa") = some 5 ∧
    normQT "a" ≠ normQT "xxxxa" ∧
    normQT "a" ≠ normQT "xxxxxa" ∧
    ¬ keywordHitScore "a" "xxxxa" > keywordHitScore "a" "xxxxxa" := by
  refine ⟨by decide, by decide, by decide, by decide, ?_⟩
  have h1 : keywordHitScore "a" "xxxxa" = max (1/5) ((9/10) / (1 + ((4:Nat) : ℚ))) :=
    keywordHitScore_of_found _ _ 4 (by decide) (by decide) (by decide) (by decide)
  have h2 : keywordHitScore "a" "xxxxxa" = max (1/5) ((9/10) / (1 + ((5:Nat) : ℚ))) :=
    keywordHitScore_of_found _ _ 5 (by decide) (by decide) (by decide) (by decide)
  rw [h1, h2]
  have e1 : max ((1:ℚ)/5) ((9/10) / (1 + ((4:Nat) : ℚ))) = 1/5 := by
    apply max_eq_left
    push_cast
    norm_num
  have e2 : max ((1:ℚ)/5) ((9/10) / (1 + ((5:Nat) : ℚ))) = 1/5 := by
    apply max_eq_left
    push_cast
    norm_num
  rw [e1, e2]
  exact lt_irrefl _

/-- C4 amended: for non-exact substring matches at positions
`p1 < p2`, the code's score is weakly monotone — `score(t1) ≥ score(t2)` —
and strictly greater exactly when the earlier match is above the 0.2 floor
(`p1 ≤ 3`); at positions ≥ 4 both scores clamp to 0.2. -/
theorem keyword_score_weak_monotone (query t1 t2 : String) (p1 p2 : Nat)
    (hq : (normQT query).isEmpty = false)
    (ht1 : (normQT t1).isEmpty = false)
    (ht2 : (normQT t2).isEmpty = false)
    (hne1 : normQT query ≠ normQT t1)
    (hne2 : normQT query ≠ normQT t2)
    (hp1 : subPos (normQT query) (normQT t1) = some p1)
    (hp2 : subPos (normQT query) (normQT t2) = some p2)
    (hlt : p1 < p2) :
    keywordHitScore query t2 ≤ keywordHitScore query t1 ∧
    (p1 ≤ 3 → keywordHitScore query t2 < keywordHitScore query t1) := by
  rw [keywordHitScore_of_found query t1 p1 hq ht1 hne1 hp1,
    keywordHitScore_of_found query t2 p2 hq ht2 hne2 hp2]
  refine ⟨posScore_antitone p1 p2 hlt, fun h3 => ?_⟩
  have hfloor : (1:ℚ)/5 < (9/10) / (1 + (p1 : ℚ)) := by
    have hle : (p1 : ℚ) ≤ 3 := by exact_mod_cast h3
    have hpos : (0:ℚ) < 1 + (p1 : ℚ) := by positivity
    rw [div_lt_div_iff₀ (by norm_num) hpos]
    linarith
  have hmax1 : max ((1:ℚ)/5) ((9/10) / (1 + (p1 : ℚ))) = (9/10) / (1 + (p1 : ℚ)) :=
    max_eq_right (le_of_lt hfloor)
  rw [hmax1]
  apply max_lt
  · exact hfloor
  · apply div_lt_div_of_pos_left (by norm_num) (by positivity)
    have : (p1 : ℚ) < p2 := by exact_mod_cast hlt
    linarith

/-- Witness for the amended C4 theorem at concrete query and titles. -/
theorem keyword_score_weak_monotone_witness :
    keywordHitScore "a" "xxa" ≤ keywordHitScore "a" "xa" ∧
    (1 ≤ 3 → keywordHitScore "a" "xxa" < keywordHitScore "a" "xa") :=
  keyword_score_weak_monotone "a" "xa" "xxa" 1 2 (by decide) (by decide) (by decide)
    (by decide) (by decide) (by decide) (by decide) (by decide)

/-! ## Claim C5: query rewrite of "恐怖 电影 视频 中字" -/

/-- C5 counterexample: on `"恐怖 电影 视频 中字"` the rewriter derives no
`file_type` (the map only matches explicit phrases such as "视频文件", not
the bare "视频"), no `subtitle_langs` ("中字" is a subtitle marker but not a
language keyword), and leaves the cleaned query unchanged; so the claimed
combination fails. -/
theorem query_rewrite_counterexample :
    ¬ ((extractQueryFilters "恐怖 电影 视频 中字").2.file_type = some "video" ∧
       "zh" ∈ (extractQueryFilters "恐怖 电影 视频 中字").2.subtitle_langs ∧
       "恐怖" ∈ (extractQueryFilters "恐怖 电影 视频 中字").2.genres ∧
       "Horror" ∈ (extractQueryFilters "恐怖 电影 视频 中字").2.genres ∧
       (extractQueryFilters "恐怖 电影 视频 中字").1 = "恐怖") := by
  decide

/-- C5 amended: `extract_query_filters("恐怖 电影 视频 中字")` returns the
query unchanged with no file-type and no language filters, and only the
genre filters `["恐怖", "Horror"]`. -/
theorem query_rewrite_actual :
    extractQueryFilters "恐怖 电影 视频 中字" =
      ("恐怖 电影 视频 中字",
       { file_type := none, audio_langs := [], subtitle_langs := []
         genres := ["恐怖", "Horror"] }) := by
  decide

/-! ## Claims C6 and C7: `fetch_pending` selection and ordering -/

theorem pendingWhere_eq_spec (md5 : String → String) (os : Option SyncRow)
    (r : CatRow) (h : ∀ s, os = some s → s.updated_at.isSome) :
    pendingWhere md5 os r = specPending md5 os r := by
  cases os with
  | none => rfl
  | some s =>
    obtain ⟨su, hsu⟩ := Option.isSome_iff_exists.mp (h s rfl)
    simp only [pendingWhere, specPending, hsu, Option.getD_some]
    cases r.updated_at <;> rfl

/-- C6: a catalog row is returned by `fetch_pending` (up to `batch_size`)
iff it has no sync-state row, or its catalog `updated_at` is greater than
the sync-state `updated_at`, or md5 of its text differs from the sync-state
`text_hash` — under the writer invariant that present sync-state rows carry
a non-null `updated_at` (the schema default and every writer set it). -/
theorem fetch_pending_selects_pending (md5 : String → String) (sdb : SyncDB)
    (src : String) (rows : List CatRow) (n : Nat)
    (hs : ∀ e ∈ sdb, e.2.updated_at.isSome) :
    (∀ r ∈ fetchPendingRows md5 sdb src rows n,
      specPending md5 (lookupKV sdb (src, r.pg_id)) r = true) ∧
    ((rows.filter (fun r => pendingWhere md5 (lookupKV sdb (src, r.pg_id)) r)).length ≤ n →
      ∀ r ∈ rows,
        (specPending md5 (lookupKV sdb (src, r.pg_id)) r = true ↔
          r ∈ fetchPendingRows md5 sdb src rows n)) := by
  have heq : ∀ r : CatRow,
      pendingWhere md5 (lookupKV sdb (src, r.pg_id)) r =
      specPending md5 (lookupKV sdb (src, r.pg_id)) r := by
    intro r
    apply pendingWhere_eq_spec
    intro s hlk
    exact hs _ (lookupKV_eq_some_mem hlk)
  have hmem_of : ∀ r ∈ fetchPendingRows md5 sdb src rows n,
      specPending md5 (lookupKV sdb (src, r.pg_id)) r = true := by
    intro r hr
    have h1 : r ∈ List.insertionSort updRel
        (rows.filter (fun r => pendingWhere md5 (lookupKV sdb (src, r.pg_id)) r)) :=
      List.mem_of_mem_take hr
    have h2 := (List.mem_insertionSort updRel).mp h1
    have h3 := List.of_mem_filter h2
    rw [← heq r]
    exact h3
  refine ⟨hmem_of, fun hlen r hr => ⟨fun hspec => ?_, fun hmem => hmem_of r hmem⟩⟩
  have hfilter : r ∈ rows.filter
      (fun r => pendingWhere md5 (lookupKV sdb (src, r.pg_id)) r) :=
    List.mem_filter.mpr ⟨hr, by rw [heq r]; exact hspec⟩
  have hsorted : r ∈ List.insertionSort updRel
      (rows.filter (fun r => pendingWhere md5 (lookupKV sdb (src, r.pg_id)) r)) :=
    (List.mem_insertionSort updRel).mpr hfilter
  unfold fetchPendingRows
  rw [List.take_of_length_le]
  · exact hsorted
  · rw [List.length_insertionSort]
    exact hlen

/-- Witness for C6 at a concrete table: one catalog row, empty sync state,
batch size 1. -/
theorem fetch_pending_selects_pending_witness :
    (∀ r ∈ fetchPendingRows (fun s => s) [] "s" [⟨"1", "a", some 1⟩] 1,
      specPending (fun s => s) (lookupKV [] ("s", r.pg_id)) r = true) ∧
    ((([⟨"1", "a", some 1⟩] : List CatRow).filter
        (fun r => pendingWhere (fun s => s) (lookupKV [] ("s", r.pg_id)) r)).length ≤ 1 →
      ∀ r ∈ ([⟨"1", "a", some 1⟩] : List CatRow),
        (specPending (fun s => s) (lookupKV [] ("s", r.pg_id)) r = true ↔
          r ∈ fetchPendingRows (fun s => s) [] "s" [⟨"1", "a", some 1⟩] 1)) :=
  fetch_pending_selects_pending (fun s => s) [] "s" [⟨"1", "a", some 1⟩] 1
    (by intro e he; cases he)

/-- C7 counterexample: two pending rows with the same `updated_at` but
descending ids come back in table order — the SQL orders only by
`updated_at NULLS LAST`, with no secondary id key — so the result violates
the claimed `(updated_at, id)` ordering. -/
theorem fetch_pending_order_counterexample :
    fetchPendingRows (fun s => s) [] "s"
      [⟨"2", "x", some 5⟩, ⟨"1", "y", some 5⟩] 2 =
      [⟨"2", "x", some 5⟩, ⟨"1", "y", some 5⟩] ∧
    specOrdered (fetchPendingRows (fun s => s) [] "s"
      [⟨"2", "x", some 5⟩, ⟨"1", "y", some 5⟩] 2) = false := by
  constructor
  · decide
  · decide

/-- C7 amended: `fetch_pending` returns at most `batch_size` rows, sorted
by `updated_at` with nulls last; ties carry no secondary id ordering. -/
theorem fetch_pending_order_nulls_last (md5 : String → String) (sdb : SyncDB)
    (src : String) (rows : List CatRow) (n : Nat) :
    (fetchPendingRows md5 sdb src rows n).length ≤ n ∧
    (fetchPendingRows md5 sdb src rows n).Pairwise updRel := by
  constructor
  · unfold fetchPendingRows
    rw [List.length_take]
    exact min_le_left _ _
  · unfold fetchPendingRows
    exact List.Pairwise.sublist (List.take_sublist _ _)
      (List.sorted_insertionSort updRel _)

/-! ## Claim C2: payload `text_hash` versus md5 -/

/-- C2 (code bug): on the plain path the committed `text_hash` is the md5
computed by `fetch_pending`'s SELECT, but on the TMDB/TPDB
enrichment-refresh paths the row is rebuilt with `utils.text_hash`, which
is `hashlib.sha1` — so the committed hash is sha1 of the text, differs from
the md5 the spec requires, and (because `fetch_pending` compares the stored
hash against `md5(text)`) the row remains pending on every later cycle. -/
theorem sync_text_hash_code_bug (md5 sha1 : String → String) (r : CatRow)
    (pgid t : String) (upd tupd : Option Int) (score thr : ℚ)
    (srcName embVer : String) (tag : Option Bool)
    (hmd5 : md5 r.text ≠ "") (hdiff : md5 t ≠ sha1 t) :
    (buildMeta sha1 srcName tag embVer thr (projectRow md5 r) score).text_hash = md5 r.text ∧
    (buildMeta sha1 srcName tag embVer thr (refreshedRow sha1 pgid t upd) score).text_hash
      = sha1 t ∧
    (buildMeta sha1 srcName tag embVer thr (refreshedRow sha1 pgid t upd) score).text_hash
      ≠ md5 t ∧
    pendingWhere md5
      (some { text_hash := some (sha1 t), embedding_version := some embVer
              vector_id := some "0", nsfw_score := some score
              updated_at := upd, last_error := none })
      ⟨pgid, t, tupd⟩ = true := by
  have h1 : (buildMeta sha1 srcName tag embVer thr (projectRow md5 r) score).text_hash
      = md5 r.text := by
    simp only [buildMeta, rowTextHash, projectRow, if_neg hmd5]
  have h2 : (buildMeta sha1 srcName tag embVer thr (refreshedRow sha1 pgid t upd) score).text_hash
      = sha1 t := by
    simp only [buildMeta, rowTextHash, refreshedRow, ite_self]
  refine ⟨h1, h2, ?_, ?_⟩
  · rw [h2]
    exact Ne.symm hdiff
  · simp only [pendingWhere]
    have : decide ((some (sha1 t) : Option String) ≠ some (md5 t)) = true := by
      simp
      exact Ne.symm hdiff
    rw [this, Bool.or_true]

/-- Witness for C2 at concrete hash functions and a concrete row. -/
theorem sync_text_hash_code_bug_witness :
    (buildMeta (fun s => s ++ "2") "src" none "v" 0
        (projectRow (fun s => s ++ "1") ⟨"1", "abc", none⟩) 0).text_hash
      = (fun s => s ++ "1") "abc" ∧
    (buildMeta (fun s => s ++ "2") "src" none "v" 0
        (refreshedRow (fun s => s ++ "2") "1" "abc" none) 0).text_hash
      = (fun s => s ++ "2") "abc" ∧
    (buildMeta (fun s => s ++ "2") "src" none "v" 0
        (refreshedRow (fun s => s ++ "2") "1" "abc" none) 0).text_hash
      ≠ (fun s => s ++ "1") "abc" ∧
    pendingWhere (fun s => s ++ "1")
      (some { text_hash := some ((fun s => s ++ "2") "abc"), embedding_version := some "v"
              vector_id := some "0", nsfw_score := some 0
              updated_at := none, last_error := none })
      ⟨"1", "abc", none⟩ = true :=
  sync_text_hash_code_bug (fun s => s ++ "1") (fun s => s ++ "2") ⟨"1", "abc", none⟩
    "1" "abc" none none 0 0 "src" "v" none (by decide) (by decide)

/-! ## Claim C8: nsfw flag equivalence -/

/-- C8: both the payload nsfw flag written by the sync pipeline and the
flag reconstituted by the keyword-search SQL path are true iff the nsfw
score is at least the threshold and NSFW tagging is enabled for the source
(default enabled). -/
theorem nsfw_flag_iff (sha1 : String → String) (srcName : String)
    (tag : Option Bool) (embVer : String) (thr score : ℚ) (r : PendingRow)
    (syncScore : Option ℚ) :
    ((buildMeta sha1 srcName tag embVer thr r score).nsfw = true ↔
      (score ≥ thr ∧ taggingEnabled tag = true)) ∧
    (keywordNsfwFlag tag syncScore thr = true ↔
      (pyOrZero syncScore ≥ thr ∧ taggingEnabled tag = true)) := by
  constructor
  · simp only [buildMeta, syncNsfwFlag]
    by_cases h : taggingEnabled tag = true <;> simp [h]
  · simp only [keywordNsfwFlag]
    by_cases h : taggingEnabled tag = true <;> simp [h]

/-! ## Claims C9 and C10: retry loop and sync-state writes -/

theorem markBatchFailure_lookup_other (src err : String) (now : Int) :
    ∀ (pgIds : List String) (sdb : SyncDB) (k : String × String),
    (∀ i ∈ pgIds, (src, i) ≠ k) →
    lookupKV (markBatchFailure src pgIds err now sdb) k = lookupKV sdb k := by
  intro pgIds
  induction pgIds with
  | nil => intro sdb k _; rfl
  | cons i rest ih =>
    intro sdb k hk
    have h1 : lookupKV (markFailure src i err now sdb) k = lookupKV sdb k := by
      unfold markFailure
      rw [lookupKV_insertKV]
      rw [if_neg]
      intro he
      exact hk i (List.mem_cons_self i rest) (he ▸ rfl)
    calc lookupKV (markBatchFailure src (i :: rest) err now sdb) k
        = lookupKV (markBatchFailure src rest err now (markFailure src i err now sdb)) k := rfl
      _ = lookupKV (markFailure src i err now sdb) k :=
          ih _ k (fun j hj => hk j (List.mem_cons_of_mem _ hj))
      _ = lookupKV sdb k := h1

theorem markBatchFailure_marks (src err : String) (now : Int) :
    ∀ (pgIds : List String) (sdb : SyncDB) (pid : String), pid ∈ pgIds →
    ∃ row, lookupKV (markBatchFailure src pgIds err now sdb) (src, pid) = some row ∧
      row.last_error = some (takeStr 512 err) := by
  intro pgIds
  induction pgIds with
  | nil => intro sdb pid h; cases h
  | cons i rest ih =>
    intro sdb pid hmem
    by_cases hr : pid ∈ rest
    · exact ih _ pid hr
    · have hi : pid = i := by
        rcases List.mem_cons.mp hmem with h | h
        · exact h
        · exact absurd h hr
      subst hi
      have hother : ∀ j ∈ rest, (src, j) ≠ (src, pid) := by
        intro j hj he
        exact hr ((Prod.mk.injEq _ _ _ _ ▸ he).2 ▸ hj)
      have h1 : lookupKV (markBatchFailure src (pid :: rest) err now sdb) (src, pid)
          = lookupKV (markFailure src pid err now sdb) (src, pid) :=
        markBatchFailure_lookup_other src err now rest _ _ hother
      rw [h1]
      unfold markFailure
      rw [lookupKV_insertKV, if_pos rfl]
      cases hlk : lookupKV sdb (src, pid) with
      | none => exact ⟨_, rfl, rfl⟩
      | some old => exact ⟨_, rfl, rfl⟩

/-- C9 counterexample: with a first attempt answered by HTTP 500 — a
non-transient error status, not a transport error — the client still
retries (a second attempt happens and succeeds), contradicting "retrying
only after transient HTTP statuses 502, 503, 504 (or transport errors)". -/
theorem gpu_retry_counterexample :
    (gpuPostRun oc500).ok = true ∧
    (gpuPostRun oc500).attempts = 2 ∧
    0 + 1 < (gpuPostRun oc500).attempts ∧
    transientOutcome (oc500 0) = false := by
  refine ⟨rfl, rfl, by decide, rfl⟩

/-- C9 amended: the client makes at most 3 attempts, retrying after any
failed attempt (transient statuses 502/503/504, transport errors, but also
any other error status raised by `raise_for_status`), sleeping
`0.3 · attempt` seconds after each failure; when all attempts fail the call
raises and the coordinator records `last_error` (truncated to 512
characters) for every row of the batch. -/
theorem gpu_retry_amended (outcomes : Nat → AttemptOutcome) (src err : String)
    (pgIds : List String) (now : Int) (sdb : SyncDB) (pid : String)
    (hp : pid ∈ pgIds) :
    (gpuPostRun outcomes).attempts ≤ 3 ∧
    (∀ i, i + 1 < (gpuPostRun outcomes).attempts → outcomes i ≠ .ok) ∧
    (gpuPostRun outcomes).sleeps =
      (List.range (if (gpuPostRun outcomes).ok then (gpuPostRun outcomes).attempts - 1
        else (gpuPostRun outcomes).attempts)).map backoff ∧
    ((gpuPostRun outcomes).ok = false →
      ∃ row, lookupKV (markBatchFailure src pgIds err now sdb) (src, pid) = some row ∧
        row.last_error = some (takeStr 512 err)) := by
  rcases h0 : outcomes 0 with _ | c0 | _ <;> rcases h1 : outcomes 1 with _ | c1 | _ <;>
    rcases h2 : outcomes 2 with _ | c2 | _ <;>
    simp only [gpuPostRun, h0, h1, h2] <;>
    refine ⟨by omega, fun i hi => ?_, by rfl,
      fun _ => markBatchFailure_marks src err now pgIds sdb pid hp⟩ <;>
    first
      | omega
      | (rcases i with _ | _ | i
         · simp [h0]
         · simp [h1]
         · omega)
      | (rcases i with _ | i
         · simp [h0]
         · omega)

/-- Witness for the amended C9 theorem: all three attempts raise transport
errors; every batch row is marked with the truncated error. -/
theorem gpu_retry_amended_witness :
    (gpuPostRun (fun _ => .exn)).attempts ≤ 3 ∧
    (∀ i, i + 1 < (gpuPostRun (fun _ => .exn)).attempts → (fun _ => AttemptOutcome.exn) i ≠ .ok) ∧
    (gpuPostRun (fun _ => .exn)).sleeps =
      (List.range (if (gpuPostRun (fun _ => .exn)).ok then
        (gpuPostRun (fun _ => .exn)).attempts - 1
        else (gpuPostRun (fun _ => .exn)).attempts)).map backoff ∧
    ((gpuPostRun (fun _ => .exn)).ok = false →
      ∃ row, lookupKV (markBatchFailure "s" ["1"] "boom" 7 []) ("s", "1") = some row ∧
        row.last_error = some (takeStr 512 "boom")) :=
  gpu_retry_amended (fun _ => .exn) "s" "boom" ["1"] 7 [] "1" (by decide)

theorem upsertSyncState_lookup_other (src : String) (now : Int) :
    ∀ (updates : List UpdateRec) (sdb : SyncDB) (k : String × String),
    (∀ u ∈ updates, (src, u.pg_id) ≠ k) →
    lookupKV (upsertSyncState src updates now sdb) k = lookupKV sdb k := by
  intro updates
  induction updates with
  | nil => intro sdb k _; rfl
  | cons v rest ih =>
    intro sdb k hk
    calc lookupKV (upsertSyncState src (v :: rest) now sdb) k
        = lookupKV (upsertSyncState src rest now
            (insertKV sdb (src, v.pg_id) (upsertRow now v))) k := rfl
      _ = lookupKV (insertKV sdb (src, v.pg_id) (upsertRow now v)) k :=
          ih _ k (fun u hu => hk u (List.mem_cons_of_mem _ hu))
      _ = lookupKV sdb k := by
          rw [lookupKV_insertKV, if_neg]
          intro he
          exact hk v (List.mem_cons_self v rest) (he ▸ rfl)

theorem upsertSyncState_writes (src : String) (now : Int) :
    ∀ (updates : List UpdateRec) (sdb : SyncDB) (pid : String),
    (∃ u ∈ updates, pid = u.pg_id) →
    ∃ row, lookupKV (upsertSyncState src updates now sdb) (src, pid) = some row ∧
      row.last_error = none := by
  intro updates
  induction updates with
  | nil =>
    rintro sdb pid ⟨u, hu, -⟩
    cases hu
  | cons v rest ih =>
    intro sdb pid hex
    by_cases hr : ∃ u ∈ rest, pid = u.pg_id
    · exact ih _ pid hr
    · have hpid : pid = v.pg_id := by
        obtain ⟨u, hu, he⟩ := hex
        rcases List.mem_cons.mp hu with h | h
        · exact h ▸ he
        · exact absurd ⟨u, h, he⟩ hr
      have hother : ∀ u ∈ rest, (src, u.pg_id) ≠ (src, pid) := by
        intro u hu he
        apply hr
        refine ⟨u, hu, ?_⟩
        injection he with h1 h2
        exact h2.symm
      have h1 : lookupKV (upsertSyncState src (v :: rest) now sdb) (src, pid)
          = lookupKV (insertKV sdb (src, v.pg_id) (upsertRow now v)) (src, pid) :=
        upsertSyncState_lookup_other src now rest _ _ hother
      rw [h1, hpid, lookupKV_insertKV, if_pos rfl]
      exact ⟨_, rfl, rfl⟩

/-- C10: every `(source, pg_id)` written by a successful
`upsert_sync_state` has `last_error = NULL` afterwards — a successful batch
commit erases any previously recorded per-row failure. -/
theorem upsert_sync_state_clears_last_error (src : String)
    (updates : List UpdateRec) (now : Int) (sdb : SyncDB) (u : UpdateRec)
    (hu : u ∈ updates) :
    ∃ row, lookupKV (upsertSyncState src updates now sdb) (src, u.pg_id) = some row ∧
      row.last_error = none :=
  upsertSyncState_writes src now updates sdb u.pg_id ⟨u, hu, rfl⟩

/-- Witness for C10: the prior sync-state row carries
`last_error = "boom"`; after the upsert it is NULL. -/
theorem upsert_sync_state_clears_last_error_witness :
    ∃ row, lookupKV (upsertSyncState "s"
        [{ pg_id := "1", text_hash := some "h", embedding_version := some "v"
           nsfw_score := 0, vector_id := "0" }] 7
        [(("s", "1"),
          { text_hash := none, embedding_version := none, vector_id := none
            nsfw_score := none, updated_at := some 1, last_error := some "boom" })])
      ("s", "1") = some row ∧ row.last_error = none :=
  upsert_sync_state_clears_last_error "s"
    [{ pg_id := "1", text_hash := some "h", embedding_version := some "v"
       nsfw_score := 0, vector_id := "0" }] 7
    [(("s", "1"),
      { text_hash := none, embedding_version := none, vector_id := none
        nsfw_score := none, updated_at := some 1, last_error := some "boom" })]
    { pg_id := "1", text_hash := some "h", embedding_version := some "v"
      nsfw_score := 0, vector_id := "0" } (by decide)
